import Mathlib

set_option maxRecDepth 4000

/-!
Verification of the ride-dispatch simulation engine.

The repository ships a React/TypeScript frontend (`frontend/src/`) and a
README describing a FastAPI backend (`backend/models.py`, `dispatch.py`,
`simulation.py`, `api.py`).  The backend sources are not part of the
checked-in tree, so the dispatch-and-simulation core below is modelled
from the specification; the frontend API service layer (`services/api.ts`)
is embedded directly from its source.
-/

namespace RideSim

/-- Integer grid point; mirrors the `Location` interface of
`frontend/src/types/index.ts` (`x : number`, `y : number`). -/
structure Location where
  x : Int
  y : Int
deriving DecidableEq, Repr

/-- Modelled from the spec: Geometry (§4.1) of the missing backend.
`distance(a, b) = |a.x - b.x| + |a.y - b.y|` (Manhattan metric). -/
def distance (a b : Location) : Nat :=
  (a.x - b.x).natAbs + (a.y - b.y).natAbs

/-- Modelled from the spec: the Tick Engine movement rule (§4.4) of the
missing backend `simulation.py`: horizontal-first — if `current.x ≠
waypoint.x`, move x by ±1 toward the waypoint; only once x is aligned
does y move by ±1 toward the waypoint. -/
def stepToward (cur way : Location) : Location :=
  if cur.x < way.x then { cur with x := cur.x + 1 }
  else if way.x < cur.x then { cur with x := cur.x - 1 }
  else if cur.y < way.y then { cur with y := cur.y + 1 }
  else if way.y < cur.y then { cur with y := cur.y - 1 }
  else cur

/-- Iterate `stepToward` toward a fixed waypoint for `n` ticks. -/
def iterSteps (way : Location) : Nat → Location → Location
  | 0, c => c
  | n + 1, c => iterSteps way n (stepToward c way)

/-- Minimum of a list of naturals (0 for the empty list). -/
def natMin : List Nat → Nat
  | [] => 0
  | [v] => v
  | v :: rest => min v (natMin rest)

/-- Maximum of a list of naturals (0 for the empty list). -/
def natMax : List Nat → Nat
  | [] => 0
  | [v] => v
  | v :: rest => max v (natMax rest)

/-- Modelled from the spec: min–max normalization (§4.2) of the missing
backend `dispatch.py`: `norm(v) = (v - min) / (max - min)`, with the
convention `norm(v) = 0` for every candidate when `max == min`. -/
def norm (v mn mx : Nat) : ℚ :=
  if mx = mn then 0 else ((v : ℚ) - (mn : ℚ)) / ((mx : ℚ) - (mn : ℚ))

/-- Driver status union of `frontend/src/types/index.ts`. -/
inductive DriverStatus
  | AVAILABLE
  | ON_TRIP
  | OFFLINE
deriving DecidableEq, Repr

/-- Mirrors the `Driver` interface of `frontend/src/types/index.ts`
(ids modelled as naturals so that the ascending-id tie-break is a plain
numeric order). -/
structure Driver where
  id : Nat
  name : String
  location : Location
  status : DriverStatus
  current_ride_id : Option Nat
  completed_rides : Nat
  idle_time_minutes : Nat
  recent_rides_count : Nat
deriving DecidableEq, Repr

/-- A candidate driver together with its raw eta and composite score. -/
structure Scored where
  driver : Driver
  eta : Nat
  score : ℚ
deriving DecidableEq, Repr

/-- Modelled from the spec: the raw signals of §4.2 — `eta(d)` is the
Manhattan distance from the driver to the pickup, `fairness(d)` is
`recent_rides_count`, `idle(d)` is `idle_time_minutes`. -/
def etaOf (pickup : Location) (d : Driver) : Nat := distance d.location pickup

/-- Modelled from the spec: the Scoring Engine (§4.2) of the missing
backend `dispatch.py`.  Each signal is min–max normalized over the
candidate set; eta and fairness are inverted ("lower is better"); the
composite score is `0.6 * norm_eta' + 0.25 * norm_fair' + 0.15 * norm_idle`. -/
def scoreCandidates (pickup : Location) (ds : List Driver) : List Scored :=
  let etas := ds.map (etaOf pickup)
  let fairs := ds.map (fun d => d.recent_rides_count)
  let idles := ds.map (fun d => d.idle_time_minutes)
  ds.map fun d =>
    { driver := d
      eta := etaOf pickup d
      score :=
        (6 / 10 : ℚ) * (1 - norm (etaOf pickup d) (natMin etas) (natMax etas)) +
        (25 / 100 : ℚ) * (1 - norm d.recent_rides_count (natMin fairs) (natMax fairs)) +
        (15 / 100 : ℚ) * norm d.idle_time_minutes (natMin idles) (natMax idles) }

/-- Modelled from the spec: the deterministic ranking order of §4.2 —
maximum score first, ties broken by ascending raw eta, then by ascending
driver id. -/
def Better (a b : Scored) : Prop :=
  b.score < a.score ∨
    (a.score = b.score ∧
      (a.eta < b.eta ∨ (a.eta = b.eta ∧ a.driver.id < b.driver.id)))

instance instDecidableBetter (a b : Scored) : Decidable (Better a b) := by
  unfold Better
  infer_instance

/-- Pick the best-ranked element of a scored list (none when empty). -/
def pickBest : List Scored → Option Scored
  | [] => none
  | c :: rest =>
    some (match pickBest rest with
          | none => c
          | some b => if Better c b then c else b)

/-- Modelled from the spec: the Scoring Engine selection (§4.2) — score
the candidate set and select the best-ranked candidate. -/
def selectDriver (pickup : Location) (ds : List Driver) : Option Driver :=
  (pickBest (scoreCandidates pickup ds)).map (fun sc => sc.driver)

/-- Ride-request status union of `frontend/src/types/index.ts`:
`waiting | pending_acceptance | assigned | rejected | completed | failed`. -/
inductive RideStatus
  | WAITING
  | PENDING_ACCEPTANCE
  | ASSIGNED
  | REJECTED
  | COMPLETED
  | FAILED
deriving DecidableEq, Repr

/-- Mirrors the `Rider` interface of `frontend/src/types/index.ts`. -/
structure Rider where
  id : Nat
  name : String
  pickup_location : Location
  dropoff_location : Location
deriving DecidableEq, Repr

/-- Mirrors the `RideRequest` interface of `frontend/src/types/index.ts`,
plus the rejection counter of the spec data model (§3). -/
structure RideRequest where
  id : Nat
  rider_id : Nat
  status : RideStatus
  assigned_driver_id : Option Nat
  offered_to_driver_id : Option Nat
  pickup_location : Location
  dropoff_location : Location
  rejected_by : List Nat
  pickup_completed : Bool
  rejection_count : Nat
deriving DecidableEq, Repr

/-- Mirrors the `SystemState` interface of `frontend/src/types/index.ts`. -/
structure SimState where
  drivers : List Driver
  riders : List Rider
  ride_requests : List RideRequest
  current_tick : Nat
deriving DecidableEq, Repr

/-- Error kinds of the spec (§7). -/
inductive DispatchError
  | NotFound
  | InvalidStateTransition
  | EntityInUse
deriving DecidableEq, Repr

/-- Apply `f` to the request with id `i`, leaving all others unchanged. -/
def updateRequest (rs : List RideRequest) (i : Nat)
    (f : RideRequest → RideRequest) : List RideRequest :=
  rs.map fun r => if r.id = i then f r else r

/-- Apply `f` to the driver with id `i`, leaving all others unchanged. -/
def updateDriver (ds : List Driver) (i : Nat)
    (f : Driver → Driver) : List Driver :=
  ds.map fun d => if d.id = i then f d else d

/-- Look up a ride request by id in the entity store. -/
def findRequest (s : SimState) (i : Nat) : Option RideRequest :=
  s.ride_requests.find? fun r => r.id == i

/-- Look up a driver by id in the entity store. -/
def findDriver (s : SimState) (i : Nat) : Option Driver :=
  s.drivers.find? fun d => d.id == i

/-- Modelled from the spec: the candidate set of §4.3 step 1 of the
missing backend `dispatch.py` — AVAILABLE drivers, excluding the ones in
`rejected_by` and the ones with an outstanding offer on any request. -/
def offerCandidates (s : SimState) (req : RideRequest) : List Driver :=
  s.drivers.filter fun d =>
    d.status == .AVAILABLE &&
    !(req.rejected_by.contains d.id) &&
    s.ride_requests.all fun r => r.offered_to_driver_id != some d.id

/-- Modelled from the spec: §4.3 step 1 of the missing backend — run the
Scoring Engine over the candidate set; on a candidate, the request goes
to PENDING_ACCEPTANCE with `offered_to_driver_id` pointing to it; with
no candidate it stays WAITING. -/
def applyOffer (s : SimState) (req : RideRequest) : RideRequest :=
  match selectDriver req.pickup_location (offerCandidates s req) with
  | some d =>
      { req with status := .PENDING_ACCEPTANCE, offered_to_driver_id := some d.id }
  | none => { req with status := .WAITING, offered_to_driver_id := none }

/-- The fixed attempt budget of the spec: 3 total rejections. -/
def MAX_REJECTIONS : Nat := 3

/-- A fresh WAITING request copying the rider's locations (§3). -/
def newRequest (newId riderId : Nat) (rider : Rider) : RideRequest :=
  { id := newId, rider_id := riderId, status := .WAITING,
    assigned_driver_id := none, offered_to_driver_id := none,
    pickup_location := rider.pickup_location,
    dropoff_location := rider.dropoff_location,
    rejected_by := [], pickup_completed := false, rejection_count := 0 }

/-- Modelled from the spec: requestRide (§6, §4.3 step 1) of the missing
backend — create a WAITING request copying the rider's locations, then
apply step 1. -/
def requestRide (s : SimState) (riderId newId : Nat) :
    Except DispatchError SimState :=
  match s.riders.find? (fun r => r.id == riderId) with
  | none => .error .NotFound
  | some rider =>
    .ok { s with ride_requests :=
      s.ride_requests ++ [applyOffer s (newRequest newId riderId rider)] }

/-- Modelled from the spec: acceptRide (§4.3 step 2) of the missing
backend — valid only in PENDING_ACCEPTANCE by the offered driver; on
success the request is ASSIGNED to the driver and the driver goes
ON_TRIP with idle time reset; anything else is an error. -/
def acceptRide (s : SimState) (reqId driverId : Nat) :
    Except DispatchError SimState :=
  match findRequest s reqId with
  | none => .error .NotFound
  | some req =>
    match findDriver s driverId with
    | none => .error .NotFound
    | some _ =>
      if req.status = .PENDING_ACCEPTANCE ∧
          req.offered_to_driver_id = some driverId then
        .ok { s with
          ride_requests := updateRequest s.ride_requests reqId fun r =>
            { r with
              status := .ASSIGNED
              assigned_driver_id := some driverId
              offered_to_driver_id := none },
          drivers := updateDriver s.drivers driverId fun d =>
            { d with
              status := .ON_TRIP
              current_ride_id := some reqId
              idle_time_minutes := 0 } }
      else .error .InvalidStateTransition

/-- Modelled from the spec: rejectRide (§4.3 step 3) of the missing
backend — record the rejection; on the third rejection the request fails
terminally, otherwise it returns to WAITING and step 1 is re-run
synchronously against the updated exclusion set. -/
def rejectRide (s : SimState) (reqId driverId : Nat) :
    Except DispatchError SimState :=
  match findRequest s reqId with
  | none => .error .NotFound
  | some req =>
    match findDriver s driverId with
    | none => .error .NotFound
    | some _ =>
      if req.status = .PENDING_ACCEPTANCE ∧
          req.offered_to_driver_id = some driverId then
        let req1 : RideRequest :=
          { req with
            rejected_by := req.rejected_by ++ [driverId]
            rejection_count := req.rejection_count + 1
            offered_to_driver_id := none
            status := if MAX_REJECTIONS ≤ req.rejection_count + 1
                      then .FAILED else .WAITING }
        if MAX_REJECTIONS ≤ req.rejection_count + 1 then
          .ok { s with
            ride_requests := updateRequest s.ride_requests reqId fun _ => req1 }
        else
          let s1 : SimState :=
            { s with
              ride_requests := updateRequest s.ride_requests reqId fun _ => req1 }
          let req2 := applyOffer s1 req1
          .ok { s1 with
            ride_requests := updateRequest s1.ride_requests reqId fun _ => req2 }
      else .error .InvalidStateTransition

/-- The request record right after a non-final rejection (§4.3 step 3):
the rejecting driver joins `rejected_by`, the counter increments, the
offer is cleared and the status returns to WAITING. -/
def rejectedOnce (req : RideRequest) (driverId : Nat) : RideRequest :=
  { req with
    rejected_by := req.rejected_by ++ [driverId]
    rejection_count := req.rejection_count + 1
    offered_to_driver_id := none
    status := .WAITING }

/-- The request record right after the final rejection (§4.3 step 3):
as `rejectedOnce` but terminally FAILED. -/
def rejectedFull (req : RideRequest) (driverId : Nat) : RideRequest :=
  { req with
    rejected_by := req.rejected_by ++ [driverId]
    rejection_count := req.rejection_count + 1
    offered_to_driver_id := none
    status := .FAILED }

/-- The post-state of a final (third) rejection: the request record is
replaced by its FAILED version and nothing else changes. -/
def rejectFailState (s : SimState) (reqId driverId : Nat)
    (req : RideRequest) : SimState :=
  { s with ride_requests := updateRequest s.ride_requests reqId fun _ => rejectedFull req driverId }

/-- The intermediate state of a non-final rejection, with the rejection
recorded but the re-offer not yet run. -/
def rejectMidState (s : SimState) (reqId driverId : Nat)
    (req : RideRequest) : SimState :=
  { s with ride_requests := updateRequest s.ride_requests reqId fun _ => rejectedOnce req driverId }

/-- The post-state of a non-final rejection: record the rejection, then
synchronously re-run step 1 on the updated exclusion set. -/
def rejectResultState (s : SimState) (reqId driverId : Nat)
    (req : RideRequest) : SimState :=
  let s1 := rejectMidState s reqId driverId req
  { s1 with
    ride_requests := updateRequest s1.ride_requests reqId fun _ =>
      applyOffer s1 (rejectedOnce req driverId) }

/-- Modelled from the spec: per-driver tick advance (§4.4) of the missing
backend `simulation.py`.  AVAILABLE drivers idle one more minute; an
ON_TRIP driver moves one step toward its waypoint (pickup until
`pickup_completed`, then dropoff); phase transitions are evaluated after
the position update within the same tick, completing the ride when the
new location is the dropoff with pickup done.  Returns the updated
driver, the updated request list, and 1 if the driver moved. -/
def tickDriver (rs : List RideRequest) (d : Driver) :
    Driver × List RideRequest × Nat :=
  match d.status with
  | .AVAILABLE => ({ d with idle_time_minutes := d.idle_time_minutes + 1 }, rs, 0)
  | .OFFLINE => (d, rs, 0)
  | .ON_TRIP =>
    match d.current_ride_id with
    | none => (d, rs, 0)
    | some rid =>
      match rs.find? (fun r => r.id == rid) with
      | none => (d, rs, 0)
      | some req =>
        if req.status = .ASSIGNED then
          let way := if req.pickup_completed then req.dropoff_location
                     else req.pickup_location
          let newLoc := stepToward d.location way
          let pc := if newLoc = req.pickup_location then true
                    else req.pickup_completed
          if pc = true ∧ newLoc = req.dropoff_location then
            ({ d with
               location := newLoc
               status := .AVAILABLE
               current_ride_id := none
               completed_rides := d.completed_rides + 1
               recent_rides_count := d.recent_rides_count + 1 },
             updateRequest rs rid (fun r =>
               { r with status := .COMPLETED, pickup_completed := pc }), 1)
          else
            ({ d with location := newLoc },
             updateRequest rs rid (fun r => { r with pickup_completed := pc }), 1)
        else (d, rs, 0)

/-- The driver record after completing a ride at `loc` (§4.3 step 4):
AVAILABLE again, ride reference cleared, counters bumped. -/
def completedDriver (d : Driver) (loc : Location) : Driver :=
  { d with
    location := loc
    status := .AVAILABLE
    current_ride_id := none
    completed_rides := d.completed_rides + 1
    recent_rides_count := d.recent_rides_count + 1 }

/-- Advance every driver in order, threading the request list through. -/
def tickDrivers : List Driver → List RideRequest →
    List Driver × List RideRequest × Nat
  | [], rs => ([], rs, 0)
  | d :: ds, rs =>
    let res := tickDriver rs d
    let rest := tickDrivers ds res.2.1
    (res.1 :: rest.1, rest.2.1, res.2.2 + rest.2.2)

/-- Modelled from the spec: the Tick Engine (§4.4) of the missing
backend — advance every driver and bump the tick counter, returning the
new state and the number of drivers moved. -/
def tick (s : SimState) : SimState × Nat :=
  let res := tickDrivers s.drivers s.ride_requests
  ({ s with
     drivers := res.1
     ride_requests := res.2.1
     current_tick := s.current_tick + 1 }, res.2.2)

/-- Modelled from the spec: driver creation (§6) — a new AVAILABLE
driver with zeroed counters. -/
def createDriverOp (s : SimState) (newId : Nat) (nm : String)
    (loc : Location) : SimState :=
  { s with drivers := s.drivers ++ [⟨newId, nm, loc, .AVAILABLE, none, 0, 0, 0⟩] }

/-- Modelled from the spec: rider creation (§6). -/
def createRiderOp (s : SimState) (newId : Nat) (nm : String)
    (pickup dropoff : Location) : SimState :=
  { s with riders := s.riders ++ [⟨newId, nm, pickup, dropoff⟩] }

/-- A driver is in use when some non-terminal request is assigned or
offered to it (§7 `EntityInUse`). -/
def driverInUse (s : SimState) (driverId : Nat) : Bool :=
  s.ride_requests.any fun r =>
    !(r.status == .COMPLETED || r.status == .FAILED) &&
    (r.assigned_driver_id == some driverId ||
     r.offered_to_driver_id == some driverId)

/-- Modelled from the spec: driver removal (§3, §7) — removing a driver
that is part of a non-terminal ride request is a constraint violation. -/
def removeDriver (s : SimState) (driverId : Nat) :
    Except DispatchError SimState :=
  match findDriver s driverId with
  | none => .error .NotFound
  | some _ =>
    if driverInUse s driverId then .error .EntityInUse
    else .ok { s with drivers := s.drivers.filter fun d => d.id != driverId }

/-- A rider is in use when it owns a non-terminal request. -/
def riderInUse (s : SimState) (riderId : Nat) : Bool :=
  s.ride_requests.any fun r =>
    !(r.status == .COMPLETED || r.status == .FAILED) && r.rider_id == riderId

/-- Modelled from the spec: rider removal (§3, §7). -/
def removeRider (s : SimState) (riderId : Nat) :
    Except DispatchError SimState :=
  match s.riders.find? (fun r => r.id == riderId) with
  | none => .error .NotFound
  | some _ =>
    if riderInUse s riderId then .error .EntityInUse
    else .ok { s with riders := s.riders.filter fun r => r.id != riderId }

/-- The empty initial entity store. -/
def initState : SimState := ⟨[], [], [], 0⟩

/-- Mirrors the `TickResponse` interface of
`frontend/src/types/index.ts`. -/
structure TickResponse where
  current_tick : Nat
  moved_drivers : Nat
  message : String
deriving DecidableEq, Repr

/-- A `{ message }` JSON body as returned by the delete endpoints. -/
structure MsgBody where
  message : String
deriving DecidableEq, Repr

/-- A `{ message, status }` JSON body as returned by the accept/reject
endpoints (`frontend/src/services/api.ts`). -/
structure MsgStatus where
  message : String
  status : String
deriving DecidableEq, Repr

/-- A backend HTTP response as observed by the service layer of
`frontend/src/services/api.ts`: the `ok` flag, the parsed JSON body, and
the backend error kind that produced a failing response — which the
service layer never reads. -/
structure Response (α : Type) where
  ok : Bool
  body : α
  errorKind : Option DispatchError

/-- The outcome of a frontend API call: the parsed body, or a thrown
`Error` carrying a message. -/
inductive ApiResult (α : Type)
  | success (value : α)
  | failure (msg : String)

/-- `f` returns the parsed body exactly when the response is ok, throws
the fixed per-operation message `msg` otherwise, and is insensitive to
the backend error kind. -/
def FixedMessageApi {α : Type} (f : Response α → ApiResult α)
    (msg : String) : Prop :=
  ∀ resp : Response α,
    (resp.ok = true → f resp = .success resp.body) ∧
    (resp.ok = false → f resp = .failure msg) ∧
    (∀ k1 k2 : Option DispatchError,
      f { resp with errorKind := k1 } = f { resp with errorKind := k2 })

namespace Frontend

/-- Embeds `createDriver` of `frontend/src/services/api.ts`:
`if (!response.ok) throw new Error('Failed to create driver'); return response.json()`. -/
def createDriver (resp : Response Driver) : ApiResult Driver :=
  if resp.ok then .success resp.body else .failure "Failed to create driver"

/-- Embeds `deleteDriver` of `frontend/src/services/api.ts`. -/
def deleteDriver (resp : Response MsgBody) : ApiResult MsgBody :=
  if resp.ok then .success resp.body else .failure "Failed to delete driver"

/-- Embeds `createRider` of `frontend/src/services/api.ts`. -/
def createRider (resp : Response Rider) : ApiResult Rider :=
  if resp.ok then .success resp.body else .failure "Failed to create rider"

/-- Embeds `deleteRider` of `frontend/src/services/api.ts`. -/
def deleteRider (resp : Response MsgBody) : ApiResult MsgBody :=
  if resp.ok then .success resp.body else .failure "Failed to delete rider"

/-- Embeds `getRiders` of `frontend/src/services/api.ts`. -/
def getRiders (resp : Response (List Rider)) : ApiResult (List Rider) :=
  if resp.ok then .success resp.body else .failure "Failed to get riders"

/-- Embeds `requestRide` of `frontend/src/services/api.ts`. -/
def requestRide (resp : Response RideRequest) : ApiResult RideRequest :=
  if resp.ok then .success resp.body else .failure "Failed to request ride"

/-- Embeds `advanceTick` of `frontend/src/services/api.ts`. -/
def advanceTick (resp : Response TickResponse) : ApiResult TickResponse :=
  if resp.ok then .success resp.body else .failure "Failed to advance tick"

/-- Embeds `getSystemState` of `frontend/src/services/api.ts`. -/
def getSystemState (resp : Response SimState) : ApiResult SimState :=
  if resp.ok then .success resp.body else .failure "Failed to get system state"

/-- Embeds `getActiveRides` of `frontend/src/services/api.ts` (body
shape left abstract). -/
def getActiveRides {α : Type} (resp : Response α) : ApiResult α :=
  if resp.ok then .success resp.body else .failure "Failed to get active rides"

/-- Embeds `getDriverPendingRides` of `frontend/src/services/api.ts`
(body shape left abstract). -/
def getDriverPendingRides {α : Type} (resp : Response α) : ApiResult α :=
  if resp.ok then .success resp.body
  else .failure "Failed to get driver pending rides"

/-- Embeds `acceptRide` of `frontend/src/services/api.ts`. -/
def acceptRide (resp : Response MsgStatus) : ApiResult MsgStatus :=
  if resp.ok then .success resp.body else .failure "Failed to accept ride"

/-- Embeds `rejectRide` of `frontend/src/services/api.ts`. -/
def rejectRide (resp : Response MsgStatus) : ApiResult MsgStatus :=
  if resp.ok then .success resp.body else .failure "Failed to reject ride"

end Frontend

/-- One externally triggered operation of the core (§6): entity
management, the ride protocol, or a tick. -/
inductive Step : SimState → SimState → Prop
  | addDriver (s : SimState) (newId : Nat) (nm : String) (loc : Location) :
      Step s (createDriverOp s newId nm loc)
  | addRider (s : SimState) (newId : Nat) (nm : String)
      (pickup dropoff : Location) :
      Step s (createRiderOp s newId nm pickup dropoff)
  | reqRide (s s' : SimState) (riderId newId : Nat)
      (h : requestRide s riderId newId = .ok s')
      (hfresh : ∀ r ∈ s.ride_requests, r.id ≠ newId) : Step s s'
  | accept (s s' : SimState) (reqId driverId : Nat)
      (h : acceptRide s reqId driverId = .ok s') : Step s s'
  | reject (s s' : SimState) (reqId driverId : Nat)
      (h : rejectRide s reqId driverId = .ok s') : Step s s'
  | doTick (s : SimState) : Step s (tick s).1
  | delDriver (s s' : SimState) (driverId : Nat)
      (h : removeDriver s driverId = .ok s') : Step s s'
  | delRider (s s' : SimState) (riderId : Nat)
      (h : removeRider s riderId = .ok s') : Step s s'

/-- States reachable from the empty store by the operations of §6. -/
inductive Reachable : SimState → Prop
  | init : Reachable initState
  | step {s s' : SimState} : Reachable s → Step s s' → Reachable s'

end RideSim

namespace RideSim

/-- C3: each tick moves an on-trip driver one Manhattan unit with the
horizontal axis resolved first: while `x` differs from the waypoint, `x`
changes by ±1 toward it and `y` is unchanged; only once `x` is aligned
does `y` change by ±1.  Consequently a driver at (20,20) with waypoint
(10,10) reaches it after exactly 20 ticks, through
(19,20)…(10,20),(10,19)…(10,10). -/
theorem stepToward_horizontal_first :
    (∀ cur way : Location, cur.x ≠ way.x →
      (stepToward cur way).y = cur.y ∧
      ((cur.x < way.x ∧ (stepToward cur way).x = cur.x + 1) ∨
       (way.x < cur.x ∧ (stepToward cur way).x = cur.x - 1))) ∧
    (∀ cur way : Location, cur.x = way.x → cur.y ≠ way.y →
      (stepToward cur way).x = cur.x ∧
      ((cur.y < way.y ∧ (stepToward cur way).y = cur.y + 1) ∨
       (way.y < cur.y ∧ (stepToward cur way).y = cur.y - 1))) ∧
    iterSteps ⟨10, 10⟩ 20 ⟨20, 20⟩ = ⟨10, 10⟩ ∧
    (∀ k, k < 20 → iterSteps ⟨10, 10⟩ k ⟨20, 20⟩ ≠ ⟨10, 10⟩) ∧
    (List.range 21).map (fun n => iterSteps ⟨10, 10⟩ n ⟨20, 20⟩) =
      [⟨20, 20⟩, ⟨19, 20⟩, ⟨18, 20⟩, ⟨17, 20⟩, ⟨16, 20⟩, ⟨15, 20⟩,
       ⟨14, 20⟩, ⟨13, 20⟩, ⟨12, 20⟩, ⟨11, 20⟩, ⟨10, 20⟩, ⟨10, 19⟩,
       ⟨10, 18⟩, ⟨10, 17⟩, ⟨10, 16⟩, ⟨10, 15⟩, ⟨10, 14⟩, ⟨10, 13⟩,
       ⟨10, 12⟩, ⟨10, 11⟩, ⟨10, 10⟩] := by
  refine ⟨?_, ?_, by decide, by decide, by decide⟩
  · intro cur way hx
    unfold stepToward
    rcases lt_trichotomy cur.x way.x with h | h | h
    · simp [h]
    · exact absurd h hx
    · simp [h, not_lt.mpr (le_of_lt h)]
  · intro cur way hx hy
    unfold stepToward
    rcases lt_trichotomy cur.y way.y with h | h | h
    · simp [hx, h]
    · exact absurd h hy
    · simp [hx, h, not_lt.mpr (le_of_lt h)]

/-- Witness for `stepToward_horizontal_first`: instantiating the two
conditional clauses at concrete points. -/
theorem stepToward_horizontal_first_witness :
    (stepToward ⟨20, 20⟩ ⟨10, 10⟩).y = 20 ∧
    (stepToward ⟨10, 20⟩ ⟨10, 10⟩).x = 10 := by
  refine ⟨?_, ?_⟩
  · exact (stepToward_horizontal_first.1 ⟨20, 20⟩ ⟨10, 10⟩ (by decide)).1
  · exact (stepToward_horizontal_first.2.1 ⟨10, 20⟩ ⟨10, 10⟩ rfl (by decide)).1

theorem natMin_le_of_mem {l : List Nat} {v : Nat} (h : v ∈ l) : natMin l ≤ v := by
  induction l with
  | nil => cases h
  | cons a t ih =>
    cases t with
    | nil =>
      rcases List.mem_singleton.mp h with rfl
      exact le_refl _
    | cons b t2 =>
      have hm : natMin (a :: b :: t2) = min a (natMin (b :: t2)) := rfl
      rcases List.mem_cons.mp h with rfl | h2
      · rw [hm]; exact min_le_left _ _
      · rw [hm]; exact le_trans (min_le_right _ _) (ih h2)

theorem le_natMax_of_mem {l : List Nat} {v : Nat} (h : v ∈ l) : v ≤ natMax l := by
  induction l with
  | nil => cases h
  | cons a t ih =>
    cases t with
    | nil =>
      rcases List.mem_singleton.mp h with rfl
      exact le_refl _
    | cons b t2 =>
      have hm : natMax (a :: b :: t2) = max a (natMax (b :: t2)) := rfl
      rcases List.mem_cons.mp h with rfl | h2
      · rw [hm]; exact le_max_left _ _
      · rw [hm]; exact le_trans (ih h2) (le_max_right _ _)

theorem norm_bounds {v mn mx : Nat} (h1 : mn ≤ v) (h2 : v ≤ mx) :
    0 ≤ norm v mn mx ∧ norm v mn mx ≤ 1 := by
  unfold norm
  split
  · exact ⟨le_refl 0, by norm_num⟩
  · rename_i hne
    have hmn : mn < mx := lt_of_le_of_ne (le_trans h1 h2) (fun e => hne e.symm)
    have hq : (mn : ℚ) < (mx : ℚ) := by exact_mod_cast hmn
    have hv1 : (mn : ℚ) ≤ (v : ℚ) := by exact_mod_cast h1
    have hv2 : (v : ℚ) ≤ (mx : ℚ) := by exact_mod_cast h2
    constructor
    · apply div_nonneg <;> linarith
    · rw [div_le_one (by linarith)]
      linarith

/-- C2: every candidate's composite score equals
`0.6 * (1 - norm(eta)) + 0.25 * (1 - norm(fairness)) + 0.15 * norm(idle)`
with each signal min–max normalized over the candidate set, and every
normalized signal and every score lies in [0, 1]. -/
theorem score_formula_and_bounds (pickup : Location) (ds : List Driver)
    (sc : Scored) (hmem : sc ∈ scoreCandidates pickup ds) :
    sc.score =
      (6 / 10 : ℚ) * (1 - norm (etaOf pickup sc.driver)
          (natMin (ds.map (etaOf pickup))) (natMax (ds.map (etaOf pickup)))) +
      (25 / 100 : ℚ) * (1 - norm sc.driver.recent_rides_count
          (natMin (ds.map (fun d => d.recent_rides_count)))
          (natMax (ds.map (fun d => d.recent_rides_count)))) +
      (15 / 100 : ℚ) * norm sc.driver.idle_time_minutes
          (natMin (ds.map (fun d => d.idle_time_minutes)))
          (natMax (ds.map (fun d => d.idle_time_minutes))) ∧
    (0 ≤ norm (etaOf pickup sc.driver)
        (natMin (ds.map (etaOf pickup))) (natMax (ds.map (etaOf pickup))) ∧
      norm (etaOf pickup sc.driver)
        (natMin (ds.map (etaOf pickup))) (natMax (ds.map (etaOf pickup))) ≤ 1) ∧
    (0 ≤ norm sc.driver.recent_rides_count
        (natMin (ds.map (fun d => d.recent_rides_count)))
        (natMax (ds.map (fun d => d.recent_rides_count))) ∧
      norm sc.driver.recent_rides_count
        (natMin (ds.map (fun d => d.recent_rides_count)))
        (natMax (ds.map (fun d => d.recent_rides_count))) ≤ 1) ∧
    (0 ≤ norm sc.driver.idle_time_minutes
        (natMin (ds.map (fun d => d.idle_time_minutes)))
        (natMax (ds.map (fun d => d.idle_time_minutes))) ∧
      norm sc.driver.idle_time_minutes
        (natMin (ds.map (fun d => d.idle_time_minutes)))
        (natMax (ds.map (fun d => d.idle_time_minutes))) ≤ 1) ∧
    0 ≤ sc.score ∧ sc.score ≤ 1 := by
  unfold scoreCandidates at hmem
  simp only [List.mem_map] at hmem
  obtain ⟨d, hd, rfl⟩ := hmem
  have heta := norm_bounds
    (natMin_le_of_mem (List.mem_map_of_mem (etaOf pickup) hd))
    (le_natMax_of_mem (List.mem_map_of_mem (etaOf pickup) hd))
  have hfair := norm_bounds
    (natMin_le_of_mem (List.mem_map_of_mem (fun d => d.recent_rides_count) hd))
    (le_natMax_of_mem (List.mem_map_of_mem (fun d => d.recent_rides_count) hd))
  have hidle := norm_bounds
    (natMin_le_of_mem (List.mem_map_of_mem (fun d => d.idle_time_minutes) hd))
    (le_natMax_of_mem (List.mem_map_of_mem (fun d => d.idle_time_minutes) hd))
  refine ⟨rfl, heta, hfair, hidle, ?_, ?_⟩
  · obtain ⟨e1, e2⟩ := heta
    obtain ⟨f1, f2⟩ := hfair
    obtain ⟨i1, i2⟩ := hidle
    show (0 : ℚ) ≤ _
    dsimp only
    linarith
  · obtain ⟨e1, e2⟩ := heta
    obtain ⟨f1, f2⟩ := hfair
    obtain ⟨i1, i2⟩ := hidle
    show _ ≤ (1 : ℚ)
    dsimp only
    linarith

/-- Witness for `score_formula_and_bounds`: the nearer driver of a
concrete two-driver candidate set scores 17/20, inside [0, 1]. -/
theorem score_formula_and_bounds_witness :
    0 ≤ (Scored.mk ⟨1, "A", ⟨0, 0⟩, .AVAILABLE, none, 0, 0, 0⟩ 0
      (17 / 20)).score ∧
    (Scored.mk ⟨1, "A", ⟨0, 0⟩, .AVAILABLE, none, 0, 0, 0⟩ 0
      (17 / 20)).score ≤ 1 :=
  (score_formula_and_bounds ⟨0, 0⟩
    [⟨1, "A", ⟨0, 0⟩, .AVAILABLE, none, 0, 0, 0⟩,
     ⟨2, "B", ⟨3, 4⟩, .AVAILABLE, none, 0, 5, 2⟩]
    (Scored.mk ⟨1, "A", ⟨0, 0⟩, .AVAILABLE, none, 0, 0, 0⟩ 0 (17 / 20))
    (by
      simp only [scoreCandidates, List.map_cons, List.map_nil, etaOf,
        distance, natMin, natMax, List.mem_cons]
      left
      norm_num [norm])).2.2.2.2

/-- C7: when the maximum and minimum of a signal over the candidate set
coincide (degenerate set of one, or all-equal values), min–max
normalization returns 0 for every value instead of dividing by zero; in
particular a singleton candidate set has all-zero normalized signals and
composite score `0.6 + 0.25 = 17/20`. -/
theorem norm_degenerate_zero :
    (∀ (vs : List Nat) (v : Nat), natMax vs = natMin vs →
      norm v (natMin vs) (natMax vs) = 0) ∧
    (∀ a : Nat, natMin [a] = natMax [a]) ∧
    (∀ (pickup : Location) (d : Driver),
      (scoreCandidates pickup [d]).map Scored.score = [17 / 20]) := by
  refine ⟨?_, ?_, ?_⟩
  · intro vs v h
    unfold norm
    simp [h]
  · intro a
    rfl
  · intro pickup d
    simp only [scoreCandidates, List.map_cons, List.map_nil, List.map_map]
    simp only [Function.comp, norm, natMin, natMax, if_pos rfl]
    norm_num

/-- Witness for `norm_degenerate_zero`: an all-equal signal list. -/
theorem norm_degenerate_zero_witness :
    norm 5 (natMin [7, 7]) (natMax [7, 7]) = 0 :=
  norm_degenerate_zero.1 [7, 7] 5 (by decide)

theorem better_total {a b : Scored} (h : a.driver.id ≠ b.driver.id) :
    Better a b ∨ Better b a := by
  unfold Better
  rcases lt_trichotomy b.score a.score with hs | hs | hs
  · exact Or.inl (Or.inl hs)
  · rcases lt_trichotomy a.eta b.eta with he | he | he
    · exact Or.inl (Or.inr ⟨hs.symm, Or.inl he⟩)
    · rcases lt_trichotomy a.driver.id b.driver.id with hi | hi | hi
      · exact Or.inl (Or.inr ⟨hs.symm, Or.inr ⟨he, hi⟩⟩)
      · exact absurd hi h
      · exact Or.inr (Or.inr ⟨hs, Or.inr ⟨he.symm, hi⟩⟩)
    · exact Or.inr (Or.inr ⟨hs, Or.inl he⟩)
  · exact Or.inr (Or.inl hs)

theorem better_asymm {a b : Scored} (h1 : Better a b) : ¬ Better b a := by
  intro h2
  unfold Better at h1 h2
  rcases h1 with h1 | ⟨e1, h1⟩ <;> rcases h2 with h2 | ⟨e2, h2⟩
  · exact absurd h2 (not_lt.mpr (le_of_lt h1))
  · rw [e2] at h1; exact lt_irrefl _ h1
  · rw [e1] at h2; exact lt_irrefl _ h2
  · rcases h1 with he1 | ⟨he1, hi1⟩ <;> rcases h2 with he2 | ⟨he2, hi2⟩ <;> omega

theorem better_trans {a b c : Scored} (h1 : Better a b) (h2 : Better b c) :
    Better a c := by
  unfold Better at h1 h2 ⊢
  rcases h1 with h1 | ⟨e1, h1⟩ <;> rcases h2 with h2 | ⟨e2, h2⟩
  · exact Or.inl (lt_trans h2 h1)
  · exact Or.inl (by rw [← e2]; exact h1)
  · exact Or.inl (by rw [e1]; exact h2)
  · refine Or.inr ⟨e1.trans e2, ?_⟩
    rcases h1 with he1 | ⟨he1, hi1⟩ <;> rcases h2 with he2 | ⟨he2, hi2⟩
    · exact Or.inl (by omega)
    · exact Or.inl (by omega)
    · exact Or.inl (by omega)
    · exact Or.inr ⟨by omega, by omega⟩

theorem pickBest_mem {l : List Scored} : ∀ {b : Scored},
    pickBest l = some b → b ∈ l := by
  induction l with
  | nil => intro b h; simp [pickBest] at h
  | cons c rest ih =>
    intro b h
    cases hr : pickBest rest with
    | none =>
      simp only [pickBest, hr, Option.some.injEq] at h
      exact h ▸ List.mem_cons_self c rest
    | some bb =>
      simp only [pickBest, hr, Option.some.injEq] at h
      by_cases hcb : Better c bb
      · rw [if_pos hcb] at h
        exact h ▸ List.mem_cons_self c rest
      · rw [if_neg hcb] at h
        exact h ▸ List.mem_cons_of_mem c (ih hr)

theorem pickBest_none_iff {l : List Scored} : pickBest l = none ↔ l = [] := by
  cases l with
  | nil => simp [pickBest]
  | cons c rest => simp [pickBest]

theorem pickBest_beats {l : List Scored} :
    (l.map (fun s => s.driver.id)).Nodup → ∀ {b : Scored},
    pickBest l = some b →
    ∀ x ∈ l, x.driver.id ≠ b.driver.id → Better b x := by
  induction l with
  | nil => intro _ b hb; simp [pickBest] at hb
  | cons c rest ih =>
    intro hnd b hb x hx hxid
    have hndrest : (rest.map (fun s => s.driver.id)).Nodup := by
      simp only [List.map_cons, List.nodup_cons] at hnd
      exact hnd.2
    cases hr : pickBest rest with
    | none =>
      have hrest : rest = [] := pickBest_none_iff.mp hr
      subst hrest
      simp only [pickBest, Option.some.injEq] at hb
      subst hb
      rcases List.mem_singleton.mp hx with rfl
      exact absurd rfl hxid
    | some bb =>
      simp only [pickBest, hr, Option.some.injEq] at hb
      have hbbmem : bb ∈ rest := pickBest_mem hr
      have ihb : ∀ x ∈ rest, x.driver.id ≠ bb.driver.id → Better bb x :=
        ih hndrest hr
      have hinj := List.inj_on_of_nodup_map hndrest
      by_cases hcb : Better c bb
      · rw [if_pos hcb] at hb
        subst hb
        rcases List.mem_cons.mp hx with rfl | hxr
        · exact absurd rfl hxid
        · by_cases hxbb : x.driver.id = bb.driver.id
          · have hxeq : x = bb := hinj hxr hbbmem hxbb
            rw [hxeq]
            exact hcb
          · exact better_trans hcb (ihb x hxr hxbb)
      · rw [if_neg hcb] at hb
        subst hb
        rcases List.mem_cons.mp hx with rfl | hxr
        · rcases better_total hxid with h | h
          · exact absurd h hcb
          · exact h
        · by_cases hxbb : x.driver.id = bb.driver.id
          · exact absurd hxbb hxid
          · exact ihb x hxr hxbb

theorem scoreCandidates_ids (pickup : Location) (ds : List Driver) :
    (scoreCandidates pickup ds).map (fun s => s.driver.id) =
      ds.map (fun d => d.id) := by
  unfold scoreCandidates
  simp [List.map_map, Function.comp]

/-- C9: driver selection is deterministic — for every candidate set with
pairwise-distinct driver ids, `selectDriver` returns the unique candidate
that is maximal in the fixed order (maximum score, then ascending raw
eta, then ascending driver id); in particular its score is maximal and
any candidate beating all others in that order is the selected one. -/
theorem selection_deterministic (pickup : Location) (ds : List Driver)
    (hnd : (ds.map (fun d => d.id)).Nodup) (hne : ds ≠ []) :
    ∃ sc : Scored,
      pickBest (scoreCandidates pickup ds) = some sc ∧
      selectDriver pickup ds = some sc.driver ∧
      sc ∈ scoreCandidates pickup ds ∧
      (∀ x ∈ scoreCandidates pickup ds, x.score ≤ sc.score) ∧
      (∀ x ∈ scoreCandidates pickup ds,
        x.driver.id ≠ sc.driver.id → Better sc x) ∧
      (∀ y ∈ scoreCandidates pickup ds,
        (∀ x ∈ scoreCandidates pickup ds,
          x.driver.id ≠ y.driver.id → Better y x) → y = sc) := by
  have hndsc : ((scoreCandidates pickup ds).map (fun s => s.driver.id)).Nodup := by
    rw [scoreCandidates_ids]; exact hnd
  have hscne : scoreCandidates pickup ds ≠ [] := by
    unfold scoreCandidates
    simp only [ne_eq, List.map_eq_nil_iff]
    exact hne
  obtain ⟨sc, hsc⟩ : ∃ sc, pickBest (scoreCandidates pickup ds) = some sc := by
    cases hp : pickBest (scoreCandidates pickup ds) with
    | none => exact absurd (pickBest_none_iff.mp hp) hscne
    | some sc => exact ⟨sc, rfl⟩
  have hmem : sc ∈ scoreCandidates pickup ds := pickBest_mem hsc
  have hbeats := pickBest_beats hndsc hsc
  have hinj := List.inj_on_of_nodup_map hndsc
  refine ⟨sc, hsc, ?_, hmem, ?_, hbeats, ?_⟩
  · unfold selectDriver
    rw [hsc]
    rfl
  · intro x hx
    by_cases hid : x.driver.id = sc.driver.id
    · rw [hinj hx hmem hid]
    · rcases hbeats x hx hid with hlt | ⟨heq, _⟩
      · exact le_of_lt hlt
      · exact le_of_eq heq.symm
  · intro y hy hybeats
    by_cases hid : y.driver.id = sc.driver.id
    · exact hinj hy hmem hid
    · have h1 : Better sc y := hbeats y hy hid
      have h2 : Better y sc := hybeats sc hmem (fun e => hid e.symm)
      exact absurd h2 (better_asymm h1)

theorem find?_updateRequest_self {rs : List RideRequest} {i : Nat}
    {req : RideRequest} (h : rs.find? (fun r => r.id == i) = some req)
    (f : RideRequest → RideRequest) (hf : (f req).id = req.id) :
    (updateRequest rs i f).find? (fun r => r.id == i) = some (f req) := by
  induction rs with
  | nil => simp at h
  | cons a t ih =>
    by_cases ha : a.id = i
    · have hpa : (a.id == i) = true := by simp [ha]
      simp only [List.find?, hpa] at h
      injection h with h
      subst h
      have hfa : ((f a).id == i) = true := by simp [hf, ha]
      unfold updateRequest
      simp only [List.map_cons, if_pos ha, List.find?, hfa]
    · have hpa : (a.id == i) = false := by simp [ha]
      simp only [List.find?, hpa] at h
      unfold updateRequest
      simp only [List.map_cons, if_neg ha, List.find?, hpa]
      exact ih h

theorem mem_updateRequest_of_ne {rs : List RideRequest} {i : Nat}
    {f : RideRequest → RideRequest} {r : RideRequest}
    (hr : r ∈ rs) (hne : r.id ≠ i) : r ∈ updateRequest rs i f := by
  unfold updateRequest
  exact List.mem_map.mpr ⟨r, hr, by rw [if_neg hne]⟩

theorem mem_updateRequest_elim {rs : List RideRequest} {i : Nat}
    {f : RideRequest → RideRequest} {r' : RideRequest}
    (h : r' ∈ updateRequest rs i f) :
    ∃ r ∈ rs, r' = if r.id = i then f r else r := by
  unfold updateRequest at h
  obtain ⟨r, hr, he⟩ := List.mem_map.mp h
  exact ⟨r, hr, he.symm⟩

theorem find?_updateDriver_self {ds : List Driver} {i : Nat}
    {d : Driver} (h : ds.find? (fun x => x.id == i) = some d)
    (f : Driver → Driver) (hf : (f d).id = d.id) :
    (updateDriver ds i f).find? (fun x => x.id == i) = some (f d) := by
  induction ds with
  | nil => simp at h
  | cons a t ih =>
    by_cases ha : a.id = i
    · have hpa : (a.id == i) = true := by simp [ha]
      simp only [List.find?, hpa] at h
      injection h with h
      subst h
      have hfa : ((f a).id == i) = true := by simp [hf, ha]
      unfold updateDriver
      simp only [List.map_cons, if_pos ha, List.find?, hfa]
    · have hpa : (a.id == i) = false := by simp [ha]
      simp only [List.find?, hpa] at h
      unfold updateDriver
      simp only [List.map_cons, if_neg ha, List.find?, hpa]
      exact ih h

theorem mem_updateDriver_of_ne {ds : List Driver} {i : Nat}
    {f : Driver → Driver} {d : Driver}
    (hd : d ∈ ds) (hne : d.id ≠ i) : d ∈ updateDriver ds i f := by
  unfold updateDriver
  exact List.mem_map.mpr ⟨d, hd, by rw [if_neg hne]⟩

/-- C5: acceptRide succeeds exactly when the request is in
PENDING_ACCEPTANCE and the caller is the offered driver; on success the
request becomes ASSIGNED to that driver with the offer cleared, the
driver goes ON_TRIP on this ride with idle time reset, and everything
else is untouched; in every other case an error is returned. -/
theorem acceptRide_spec (s : SimState) (reqId driverId : Nat) :
    (∀ s', acceptRide s reqId driverId = .ok s' → ∃ req d,
      findRequest s reqId = some req ∧ findDriver s driverId = some d ∧
      req.status = .PENDING_ACCEPTANCE ∧
      req.offered_to_driver_id = some driverId ∧
      findRequest s' reqId = some
        { req with
          status := .ASSIGNED
          assigned_driver_id := some driverId
          offered_to_driver_id := none } ∧
      findDriver s' driverId = some
        { d with
          status := .ON_TRIP
          current_ride_id := some reqId
          idle_time_minutes := 0 } ∧
      (∀ r ∈ s.ride_requests, r.id ≠ reqId → r ∈ s'.ride_requests) ∧
      (∀ dr ∈ s.drivers, dr.id ≠ driverId → dr ∈ s'.drivers) ∧
      s'.riders = s.riders ∧ s'.current_tick = s.current_tick) ∧
    (∀ req d, findRequest s reqId = some req → findDriver s driverId = some d →
      req.status = .PENDING_ACCEPTANCE →
      req.offered_to_driver_id = some driverId →
      ∃ s', acceptRide s reqId driverId = .ok s') ∧
    (∀ req, findRequest s reqId = some req →
      ¬(req.status = .PENDING_ACCEPTANCE ∧
        req.offered_to_driver_id = some driverId) →
      ∃ e, acceptRide s reqId driverId = .error e) ∧
    (findRequest s reqId = none →
      acceptRide s reqId driverId = .error .NotFound) := by
  refine ⟨?_, ?_, ?_, ?_⟩
  · intro s' hok
    cases hfr : findRequest s reqId with
    | none =>
      simp only [acceptRide, hfr] at hok
      exact Except.noConfusion hok
    | some req =>
      cases hfd : findDriver s driverId with
      | none =>
        simp only [acceptRide, hfr, hfd] at hok
        exact Except.noConfusion hok
      | some d =>
        simp only [acceptRide, hfr, hfd] at hok
        by_cases hguard : req.status = .PENDING_ACCEPTANCE ∧
            req.offered_to_driver_id = some driverId
        · rw [if_pos hguard] at hok
          injection hok with hok
          subst hok
          refine ⟨req, d, rfl, rfl, hguard.1, hguard.2, ?_, ?_, ?_, ?_, rfl, rfl⟩
          · exact find?_updateRequest_self hfr _ rfl
          · exact find?_updateDriver_self hfd _ rfl
          · intro r hr hne
            exact mem_updateRequest_of_ne hr hne
          · intro dr hdr hne
            exact mem_updateDriver_of_ne hdr hne
        · rw [if_neg hguard] at hok
          exact Except.noConfusion hok
  · intro req d hfr hfd h1 h2
    have heq : acceptRide s reqId driverId =
        .ok { s with
              ride_requests := updateRequest s.ride_requests reqId fun r =>
                { r with
                  status := .ASSIGNED
                  assigned_driver_id := some driverId
                  offered_to_driver_id := none }
              drivers := updateDriver s.drivers driverId fun dr =>
                { dr with
                  status := .ON_TRIP
                  current_ride_id := some reqId
                  idle_time_minutes := 0 } } := by
      simp only [acceptRide, hfr, hfd, if_pos (And.intro h1 h2)]
    exact ⟨_, heq⟩
  · intro req hfr hneg
    cases hfd : findDriver s driverId with
    | none =>
      refine ⟨.NotFound, ?_⟩
      simp only [acceptRide, hfr, hfd]
    | some d =>
      refine ⟨.InvalidStateTransition, ?_⟩
      simp only [acceptRide, hfr, hfd, if_neg hneg]
  · intro h
    simp only [acceptRide, h]

/-- Witness for `acceptRide_spec`: a concrete accept on a pending offer. -/
theorem acceptRide_spec_witness :
    ∃ s', acceptRide
      ⟨[⟨1, "W", ⟨0, 0⟩, .AVAILABLE, none, 0, 4, 0⟩],
       [⟨20, "R", ⟨2, 3⟩, ⟨5, 6⟩⟩],
       [⟨10, 20, .PENDING_ACCEPTANCE, none, some 1, ⟨2, 3⟩, ⟨5, 6⟩, [], false, 0⟩],
       0⟩ 10 1 = .ok s' :=
  (acceptRide_spec
      ⟨[⟨1, "W", ⟨0, 0⟩, .AVAILABLE, none, 0, 4, 0⟩],
       [⟨20, "R", ⟨2, 3⟩, ⟨5, 6⟩⟩],
       [⟨10, 20, .PENDING_ACCEPTANCE, none, some 1, ⟨2, 3⟩, ⟨5, 6⟩, [], false, 0⟩],
       0⟩ 10 1).2.1
    ⟨10, 20, .PENDING_ACCEPTANCE, none, some 1, ⟨2, 3⟩, ⟨5, 6⟩, [], false, 0⟩
    ⟨1, "W", ⟨0, 0⟩, .AVAILABLE, none, 0, 4, 0⟩ (by decide) (by decide) rfl rfl

theorem applyOffer_fields (s : SimState) (r : RideRequest) :
    (applyOffer s r).id = r.id ∧
    (applyOffer s r).rejected_by = r.rejected_by ∧
    (applyOffer s r).rejection_count = r.rejection_count ∧
    (applyOffer s r).assigned_driver_id = r.assigned_driver_id := by
  unfold applyOffer
  cases selectDriver r.pickup_location (offerCandidates s r) <;>
    exact ⟨rfl, rfl, rfl, rfl⟩

/-- C1: while a request is PENDING_ACCEPTANCE, a rejection by the
offered driver either (third rejection) makes the request terminally
FAILED with `rejected_by` holding exactly the three distinct rejecting
drivers and no assigned driver, or (fewer than three) records the
rejection, returns the request to WAITING and synchronously re-offers it
to the best remaining candidate excluding `rejected_by` (PENDING toward
that candidate, or WAITING when no candidate remains). -/
theorem rejectRide_fallback (s : SimState) (reqId driverId : Nat)
    (req : RideRequest) (d : Driver)
    (hfr : findRequest s reqId = some req)
    (hfd : findDriver s driverId = some d)
    (hst : req.status = .PENDING_ACCEPTANCE)
    (hoff : req.offered_to_driver_id = some driverId)
    (hassigned : req.assigned_driver_id = none)
    (hnotin : driverId ∉ req.rejected_by)
    (hnodup : req.rejected_by.Nodup)
    (hcnt : req.rejection_count = req.rejected_by.length) :
    (req.rejection_count = 2 →
      ∃ s', rejectRide s reqId driverId = .ok s' ∧
        ∃ req', findRequest s' reqId = some req' ∧
          req'.status = .FAILED ∧
          req'.rejected_by = req.rejected_by ++ [driverId] ∧
          req'.rejected_by.length = 3 ∧
          req'.rejected_by.Nodup ∧
          driverId ∈ req'.rejected_by ∧
          req'.assigned_driver_id = none ∧
          req'.offered_to_driver_id = none) ∧
    (req.rejection_count < 2 →
      ∃ s', rejectRide s reqId driverId = .ok s' ∧
        ∃ req', findRequest s' reqId = some req' ∧
          req'.rejected_by = req.rejected_by ++ [driverId] ∧
          req'.rejection_count = req.rejection_count + 1 ∧
          req'.assigned_driver_id = none ∧
          (match selectDriver (rejectedOnce req driverId).pickup_location
              (offerCandidates (rejectMidState s reqId driverId req)
                (rejectedOnce req driverId)) with
           | some best =>
              req'.status = .PENDING_ACCEPTANCE ∧
              req'.offered_to_driver_id = some best.id
           | none =>
              req'.status = .WAITING ∧ req'.offered_to_driver_id = none)) := by
  have hguard : req.status = .PENDING_ACCEPTANCE ∧
      req.offered_to_driver_id = some driverId := ⟨hst, hoff⟩
  constructor
  · intro h2
    have hmax : MAX_REJECTIONS ≤ req.rejection_count + 1 := by
      unfold MAX_REJECTIONS
      omega
    have heq : rejectRide s reqId driverId = .ok
        (rejectFailState s reqId driverId req) := by
      simp only [rejectRide, hfr, hfd, if_pos hguard, if_pos hmax,
        rejectFailState, rejectedFull]
    refine ⟨_, heq, rejectedFull req driverId, ?_, rfl, rfl, ?_, ?_, ?_, hassigned, rfl⟩
    · exact find?_updateRequest_self hfr _ rfl
    · simp only [rejectedFull, List.length_append, List.length_singleton]
      omega
    · simp only [rejectedFull]
      simp [List.nodup_append, hnodup, hnotin]
    · simp [rejectedFull]
  · intro h2
    have hmax : ¬ MAX_REJECTIONS ≤ req.rejection_count + 1 := by
      unfold MAX_REJECTIONS
      omega
    have heq : rejectRide s reqId driverId =
        .ok (rejectResultState s reqId driverId req) := by
      simp only [rejectRide, hfr, hfd, if_pos hguard, if_neg hmax,
        rejectResultState, rejectMidState, rejectedOnce]
    have hfind1 : (updateRequest s.ride_requests reqId
        fun _ => rejectedOnce req driverId).find? (fun r => r.id == reqId) =
        some (rejectedOnce req driverId) :=
      find?_updateRequest_self hfr _ rfl
    have happly := applyOffer_fields (rejectMidState s reqId driverId req)
      (rejectedOnce req driverId)
    have hfind2 := find?_updateRequest_self hfind1
      (fun _ => applyOffer (rejectMidState s reqId driverId req)
        (rejectedOnce req driverId)) happly.1
    refine ⟨_, heq, _, hfind2, ?_, ?_, ?_, ?_⟩
    · rw [happly.2.1]
      rfl
    · rw [happly.2.2.1]
      rfl
    · rw [happly.2.2.2]
      exact hassigned
    · unfold applyOffer
      cases hsel : selectDriver (rejectedOnce req driverId).pickup_location
          (offerCandidates (rejectMidState s reqId driverId req)
            (rejectedOnce req driverId)) with
      | some best => exact ⟨rfl, rfl⟩
      | none => exact ⟨rfl, rfl⟩

/-- Witness for `rejectRide_fallback`: a concrete third rejection. -/
theorem rejectRide_fallback_witness :
    ∃ s', rejectRide
        ⟨[⟨1, "W", ⟨0, 0⟩, .AVAILABLE, none, 0, 4, 0⟩],
         [⟨20, "R", ⟨2, 3⟩, ⟨5, 6⟩⟩],
         [⟨10, 20, .PENDING_ACCEPTANCE, none, some 1, ⟨2, 3⟩, ⟨5, 6⟩, [7, 8], false, 2⟩],
         0⟩ 10 1 = .ok s' ∧
      ∃ req', findRequest s' 10 = some req' ∧
        req'.status = .FAILED ∧
        req'.rejected_by = [7, 8] ++ [1] ∧
        req'.rejected_by.length = 3 ∧
        req'.rejected_by.Nodup ∧
        1 ∈ req'.rejected_by ∧
        req'.assigned_driver_id = none ∧
        req'.offered_to_driver_id = none :=
  (rejectRide_fallback
      ⟨[⟨1, "W", ⟨0, 0⟩, .AVAILABLE, none, 0, 4, 0⟩],
       [⟨20, "R", ⟨2, 3⟩, ⟨5, 6⟩⟩],
       [⟨10, 20, .PENDING_ACCEPTANCE, none, some 1, ⟨2, 3⟩, ⟨5, 6⟩, [7, 8], false, 2⟩],
       0⟩ 10 1
      ⟨10, 20, .PENDING_ACCEPTANCE, none, some 1, ⟨2, 3⟩, ⟨5, 6⟩, [7, 8], false, 2⟩
      ⟨1, "W", ⟨0, 0⟩, .AVAILABLE, none, 0, 4, 0⟩
      (by decide) (by decide) rfl rfl rfl (by decide) (by decide) rfl).1 rfl

/-- C6: when an ON_TRIP driver's new location on a tick equals its
request's dropoff location while pickup is completed, the ride completes
within that same tick: the request becomes COMPLETED, the driver becomes
AVAILABLE with `current_ride_id` cleared, and `completed_rides` grows by
exactly one. -/
theorem tick_completes_at_dropoff (rs : List RideRequest) (d : Driver)
    (rid : Nat) (req : RideRequest)
    (hstatus : d.status = .ON_TRIP)
    (hride : d.current_ride_id = some rid)
    (hfind : rs.find? (fun r => r.id == rid) = some req)
    (hreqst : req.status = .ASSIGNED)
    (hpc : req.pickup_completed = true)
    (harrive : stepToward d.location req.dropoff_location =
      req.dropoff_location) :
    tickDriver rs d =
      (completedDriver d req.dropoff_location,
       updateRequest rs rid (fun r =>
         { r with status := .COMPLETED, pickup_completed := true }), 1) ∧
    (completedDriver d req.dropoff_location).status = .AVAILABLE ∧
    (completedDriver d req.dropoff_location).current_ride_id = none ∧
    (completedDriver d req.dropoff_location).completed_rides =
      d.completed_rides + 1 ∧
    (completedDriver d req.dropoff_location).location = req.dropoff_location ∧
    (updateRequest rs rid (fun r =>
        { r with status := .COMPLETED, pickup_completed := true })).find?
      (fun r => r.id == rid) = some { req with status := .COMPLETED } := by
  refine ⟨?_, rfl, rfl, rfl, rfl, ?_⟩
  · simp only [tickDriver, hstatus, hride, hfind, hreqst, hpc, harrive,
      completedDriver, if_true, ite_self, ite_true, and_self, if_pos]
  · have h := find?_updateRequest_self hfind
      (fun r => { r with status := .COMPLETED, pickup_completed := true }) rfl
    rw [h]
    simp [hpc]

/-- Witness for `tick_completes_at_dropoff`: a driver one step from the
dropoff with pickup already done. -/
theorem tick_completes_at_dropoff_witness :
    tickDriver
      [⟨10, 20, .ASSIGNED, some 1, none, ⟨2, 3⟩, ⟨5, 6⟩, [], true, 0⟩]
      ⟨1, "W", ⟨5, 5⟩, .ON_TRIP, some 10, 3, 0, 1⟩ =
      (completedDriver ⟨1, "W", ⟨5, 5⟩, .ON_TRIP, some 10, 3, 0, 1⟩ ⟨5, 6⟩,
       updateRequest
         [⟨10, 20, .ASSIGNED, some 1, none, ⟨2, 3⟩, ⟨5, 6⟩, [], true, 0⟩]
         10 (fun r => { r with status := .COMPLETED, pickup_completed := true }),
       1) :=
  (tick_completes_at_dropoff
    [⟨10, 20, .ASSIGNED, some 1, none, ⟨2, 3⟩, ⟨5, 6⟩, [], true, 0⟩]
    ⟨1, "W", ⟨5, 5⟩, .ON_TRIP, some 10, 3, 0, 1⟩ 10
    ⟨10, 20, .ASSIGNED, some 1, none, ⟨2, 3⟩, ⟨5, 6⟩, [], true, 0⟩
    rfl rfl (by decide) rfl rfl (by decide)).1

theorem tickDrivers_no_on_trip (ds : List Driver) (rs : List RideRequest)
    (h : ∀ d ∈ ds, d.status ≠ .ON_TRIP) :
    tickDrivers ds rs =
      (ds.map (fun d => if d.status = .AVAILABLE
        then { d with idle_time_minutes := d.idle_time_minutes + 1 }
        else d), rs, 0) := by
  induction ds with
  | nil => rfl
  | cons a t ih =>
    have ha := h a (List.mem_cons_self a t)
    have ht : ∀ d ∈ t, d.status ≠ .ON_TRIP := fun d hd =>
      h d (List.mem_cons_of_mem a hd)
    cases hst : a.status with
    | ON_TRIP => exact absurd hst ha
    | AVAILABLE =>
      simp only [tickDrivers, tickDriver, hst, ih ht, List.map_cons]
      simp [hst]
    | OFFLINE =>
      simp only [tickDrivers, tickDriver, hst, ih ht, List.map_cons]
      simp [hst]

/-- C8: a tick on a state with no ON_TRIP driver increments the tick
counter, reports zero drivers moved, changes no location and no
request/rider data; the only driver mutation is one extra idle minute on
each AVAILABLE driver. -/
theorem tick_no_on_trip_frame (s : SimState)
    (h : ∀ d ∈ s.drivers, d.status ≠ .ON_TRIP) :
    (tick s).1.current_tick = s.current_tick + 1 ∧
    (tick s).2 = 0 ∧
    (tick s).1.ride_requests = s.ride_requests ∧
    (tick s).1.riders = s.riders ∧
    (tick s).1.drivers.map (fun d => d.location) =
      s.drivers.map (fun d => d.location) ∧
    (tick s).1.drivers = s.drivers.map (fun d =>
      if d.status = .AVAILABLE
      then { d with idle_time_minutes := d.idle_time_minutes + 1 }
      else d) := by
  have ht := tickDrivers_no_on_trip s.drivers s.ride_requests h
  refine ⟨?_, ?_, ?_, ?_, ?_, ?_⟩ <;>
    simp only [tick, ht]
  · rw [List.map_map]
    apply List.map_congr_left
    intro a _
    by_cases hs : a.status = .AVAILABLE <;> simp [hs]

/-- Witness for `tick_no_on_trip_frame`: one AVAILABLE and one OFFLINE
driver, nobody on a trip. -/
theorem tick_no_on_trip_frame_witness :
    (tick ⟨[⟨1, "A", ⟨0, 0⟩, .AVAILABLE, none, 0, 4, 0⟩,
            ⟨2, "B", ⟨9, 9⟩, .OFFLINE, none, 2, 0, 1⟩], [], [], 5⟩).1.current_tick
      = 6 ∧
    (tick ⟨[⟨1, "A", ⟨0, 0⟩, .AVAILABLE, none, 0, 4, 0⟩,
            ⟨2, "B", ⟨9, 9⟩, .OFFLINE, none, 2, 0, 1⟩], [], [], 5⟩).2 = 0 := by
  have h := tick_no_on_trip_frame
    ⟨[⟨1, "A", ⟨0, 0⟩, .AVAILABLE, none, 0, 4, 0⟩,
      ⟨2, "B", ⟨9, 9⟩, .OFFLINE, none, 2, 0, 1⟩], [], [], 5⟩ (by decide)
  exact ⟨h.1, h.2.1⟩

theorem updateRequest_ids (rs : List RideRequest) (i : Nat)
    (f : RideRequest → RideRequest) (hf : ∀ r, r.id = i → (f r).id = i) :
    (updateRequest rs i f).map (fun r => r.id) = rs.map (fun r => r.id) := by
  unfold updateRequest
  rw [List.map_map]
  apply List.map_congr_left
  intro a _
  by_cases ha : a.id = i
  · simp only [Function.comp, if_pos ha]
    rw [hf a ha, ha]
  · simp [ha]

theorem updateRequest_nodup {rs : List RideRequest} {i : Nat}
    {f : RideRequest → RideRequest} (hf : ∀ r, r.id = i → (f r).id = i)
    (hnd : (rs.map (fun r => r.id)).Nodup) :
    ((updateRequest rs i f).map (fun r => r.id)).Nodup := by
  rw [updateRequest_ids rs i f hf]
  exact hnd

theorem applyOffer_status (s : SimState) (r : RideRequest) :
    (applyOffer s r).status = .PENDING_ACCEPTANCE ∨
    (applyOffer s r).status = .WAITING := by
  unfold applyOffer
  cases selectDriver r.pickup_location (offerCandidates s r) with
  | none => exact Or.inr rfl
  | some d => exact Or.inl rfl

theorem tickDriver_requests (rs : List RideRequest) (d : Driver) :
    (tickDriver rs d).2.1 = rs ∨
    ∃ rid req, rs.find? (fun r => r.id == rid) = some req ∧
      req.status = .ASSIGNED ∧
      ∃ f : RideRequest → RideRequest,
        (∀ r, (f r).id = r.id) ∧
        (∀ r, (f r).status = r.status ∨ (f r).status = .COMPLETED) ∧
        (tickDriver rs d).2.1 = updateRequest rs rid f := by
  obtain ⟨did, dnm, dloc, dst, dcri, dcr, ditm, drrc⟩ := d
  cases dst with
  | AVAILABLE => exact Or.inl rfl
  | OFFLINE => exact Or.inl rfl
  | ON_TRIP =>
    cases dcri with
    | none => exact Or.inl rfl
    | some rid =>
      cases hfind : rs.find? (fun r => r.id == rid) with
      | none =>
        left
        simp only [tickDriver, hfind]
      | some req =>
        by_cases hst : req.status = .ASSIGNED
        · refine Or.inr ⟨rid, req, hfind, hst, ?_⟩
          simp only [tickDriver, hfind, if_pos hst]
          split_ifs <;>
            refine ⟨_, ?_, ?_, rfl⟩ <;>
            intro r <;>
            first
              | rfl
              | exact Or.inl rfl
              | exact Or.inr rfl
        · left
          simp only [tickDriver, hfind, if_neg hst]

theorem tickDriver_ids (rs : List RideRequest) (d : Driver) :
    ((tickDriver rs d).2.1).map (fun r => r.id) = rs.map (fun r => r.id) := by
  rcases tickDriver_requests rs d with h | ⟨rid, req, _, _, f, hfid, _, heq⟩
  · rw [h]
  · rw [heq]
    exact updateRequest_ids rs rid f (fun r h => (hfid r).trans h)

theorem tickDriver_no_rejected (rs : List RideRequest) (d : Driver)
    (h : ∀ r ∈ rs, r.status ≠ .REJECTED) :
    ∀ r ∈ (tickDriver rs d).2.1, r.status ≠ .REJECTED := by
  rcases tickDriver_requests rs d with heq | ⟨rid, req, _, _, f, _, hfst, heq⟩
  · rw [heq]; exact h
  · rw [heq]
    intro r hr
    obtain ⟨r0, hr0, hcase⟩ := mem_updateRequest_elim hr
    subst hcase
    by_cases h0 : r0.id = rid
    · rw [if_pos h0]
      rcases hfst r0 with hs | hs <;> rw [hs]
      · exact h r0 hr0
      · exact fun hc => RideStatus.noConfusion hc
    · rw [if_neg h0]
      exact h r0 hr0

theorem tickDriver_terminal (rs : List RideRequest) (d : Driver)
    (hnd : (rs.map (fun r => r.id)).Nodup)
    {r : RideRequest} (hr : r ∈ rs)
    (hterm : r.status = .COMPLETED ∨ r.status = .FAILED) :
    r ∈ (tickDriver rs d).2.1 := by
  rcases tickDriver_requests rs d with heq | ⟨rid, req, hfind, hst, f, _, _, heq⟩
  · rw [heq]; exact hr
  · rw [heq]
    have hreqmem : req ∈ rs := List.mem_of_find?_eq_some hfind
    have hreqid : req.id = rid := by
      have := List.find?_some hfind
      simpa using this
    by_cases hid : r.id = rid
    · have hre : r = req :=
        List.inj_on_of_nodup_map hnd hr hreqmem (by rw [hid, hreqid])
      rw [hre] at hterm
      rcases hterm with h2 | h2 <;> rw [hst] at h2 <;>
        exact RideStatus.noConfusion h2
    · exact mem_updateRequest_of_ne hr hid

theorem tickDrivers_ids (ds : List Driver) : ∀ rs : List RideRequest,
    ((tickDrivers ds rs).2.1).map (fun r => r.id) = rs.map (fun r => r.id) := by
  induction ds with
  | nil => intro rs; rfl
  | cons a t ih =>
    intro rs
    have hstep : (tickDrivers (a :: t) rs).2.1 =
        (tickDrivers t (tickDriver rs a).2.1).2.1 := rfl
    rw [hstep, ih ((tickDriver rs a).2.1), tickDriver_ids]

theorem tickDrivers_no_rejected (ds : List Driver) : ∀ rs : List RideRequest,
    (∀ r ∈ rs, r.status ≠ .REJECTED) →
    ∀ r ∈ (tickDrivers ds rs).2.1, r.status ≠ .REJECTED := by
  induction ds with
  | nil => intro rs h; exact h
  | cons a t ih =>
    intro rs h
    have hstep : (tickDrivers (a :: t) rs).2.1 =
        (tickDrivers t (tickDriver rs a).2.1).2.1 := rfl
    rw [hstep]
    exact ih _ (tickDriver_no_rejected rs a h)

theorem tickDrivers_terminal (ds : List Driver) : ∀ rs : List RideRequest,
    (rs.map (fun r => r.id)).Nodup →
    ∀ {r : RideRequest}, r ∈ rs →
    (r.status = .COMPLETED ∨ r.status = .FAILED) →
    r ∈ (tickDrivers ds rs).2.1 := by
  induction ds with
  | nil => intro rs _ r hr _; exact hr
  | cons a t ih =>
    intro rs hnd r hr hterm
    have hstep : (tickDrivers (a :: t) rs).2.1 =
        (tickDrivers t (tickDriver rs a).2.1).2.1 := rfl
    rw [hstep]
    refine ih _ ?_ (tickDriver_terminal rs a hnd hr hterm) hterm
    rw [tickDriver_ids]
    exact hnd

theorem requestRide_ok {s s' : SimState} {riderId newId : Nat}
    (h : requestRide s riderId newId = .ok s') :
    ∃ rider, s.riders.find? (fun r => r.id == riderId) = some rider ∧
      s' = { s with ride_requests :=
        s.ride_requests ++ [applyOffer s (newRequest newId riderId rider)] } := by
  cases hfr : s.riders.find? (fun r => r.id == riderId) with
  | none =>
    simp only [requestRide, hfr] at h
    exact Except.noConfusion h
  | some rider =>
    simp only [requestRide, hfr] at h
    injection h with h
    exact ⟨rider, rfl, h.symm⟩

theorem acceptRide_ok {s s' : SimState} {reqId driverId : Nat}
    (h : acceptRide s reqId driverId = .ok s') :
    ∃ req, findRequest s reqId = some req ∧
      req.status = .PENDING_ACCEPTANCE ∧
      s'.ride_requests = updateRequest s.ride_requests reqId (fun r =>
        { r with
          status := .ASSIGNED
          assigned_driver_id := some driverId
          offered_to_driver_id := none }) := by
  cases hfr : findRequest s reqId with
  | none =>
    simp only [acceptRide, hfr] at h
    exact Except.noConfusion h
  | some req =>
    cases hfd : findDriver s driverId with
    | none =>
      simp only [acceptRide, hfr, hfd] at h
      exact Except.noConfusion h
    | some d =>
      simp only [acceptRide, hfr, hfd] at h
      by_cases hguard : req.status = .PENDING_ACCEPTANCE ∧
          req.offered_to_driver_id = some driverId
      · rw [if_pos hguard] at h
        injection h with h
        subst h
        exact ⟨req, rfl, hguard.1, rfl⟩
      · rw [if_neg hguard] at h
        exact Except.noConfusion h

theorem rejectRide_ok {s s' : SimState} {reqId driverId : Nat}
    (h : rejectRide s reqId driverId = .ok s') :
    ∃ req, findRequest s reqId = some req ∧
      req.status = .PENDING_ACCEPTANCE ∧
      (s'.ride_requests =
        updateRequest s.ride_requests reqId (fun _ => rejectedFull req driverId) ∨
       s'.ride_requests =
        updateRequest
          (updateRequest s.ride_requests reqId (fun _ => rejectedOnce req driverId))
          reqId
          (fun _ => applyOffer (rejectMidState s reqId driverId req)
            (rejectedOnce req driverId))) := by
  cases hfr : findRequest s reqId with
  | none =>
    simp only [rejectRide, hfr] at h
    exact Except.noConfusion h
  | some req =>
    cases hfd : findDriver s driverId with
    | none =>
      simp only [rejectRide, hfr, hfd] at h
      exact Except.noConfusion h
    | some d =>
      simp only [rejectRide, hfr, hfd] at h
      by_cases hguard : req.status = .PENDING_ACCEPTANCE ∧
          req.offered_to_driver_id = some driverId
      · rw [if_pos hguard] at h
        by_cases hmax : MAX_REJECTIONS ≤ req.rejection_count + 1
        · rw [if_pos hmax] at h
          injection h with h
          subst h
          refine ⟨req, rfl, hguard.1, Or.inl ?_⟩
          simp only [rejectedFull, if_pos hmax]
        · rw [if_neg hmax] at h
          injection h with h
          subst h
          refine ⟨req, rfl, hguard.1, Or.inr ?_⟩
          simp only [rejectedOnce, rejectMidState, if_neg hmax]
      · rw [if_neg hguard] at h
        exact Except.noConfusion h

theorem removeDriver_ok {s s' : SimState} {driverId : Nat}
    (h : removeDriver s driverId = .ok s') :
    s'.ride_requests = s.ride_requests ∧ s'.riders = s.riders := by
  cases hfd : findDriver s driverId with
  | none =>
    simp only [removeDriver, hfd] at h
    exact Except.noConfusion h
  | some d =>
    simp only [removeDriver, hfd] at h
    by_cases hu : driverInUse s driverId = true
    · rw [if_pos hu] at h
      exact Except.noConfusion h
    · rw [if_neg hu] at h
      injection h with h
      subst h
      exact ⟨rfl, rfl⟩

theorem removeRider_ok {s s' : SimState} {riderId : Nat}
    (h : removeRider s riderId = .ok s') :
    s'.ride_requests = s.ride_requests ∧ s'.drivers = s.drivers := by
  cases hfr : s.riders.find? (fun r => r.id == riderId) with
  | none =>
    simp only [removeRider, hfr] at h
    exact Except.noConfusion h
  | some rd =>
    simp only [removeRider, hfr] at h
    by_cases hu : riderInUse s riderId = true
    · rw [if_pos hu] at h
      exact Except.noConfusion h
    · rw [if_neg hu] at h
      injection h with h
      subst h
      exact ⟨rfl, rfl⟩

/-- The request-level invariant carried through reachability: request
ids are pairwise distinct, and no request as a whole has status
REJECTED. -/
def ReqInv (s : SimState) : Prop :=
  (s.ride_requests.map (fun r => r.id)).Nodup ∧
  ∀ r ∈ s.ride_requests, r.status ≠ .REJECTED

theorem step_reqInv {s s' : SimState} (hs : ReqInv s) (hstep : Step s s') :
    ReqInv s' := by
  obtain ⟨hnd, hnr⟩ := hs
  cases hstep with
  | addDriver newId nm loc => exact ⟨hnd, hnr⟩
  | addRider newId nm pickup dropoff => exact ⟨hnd, hnr⟩
  | reqRide s2 riderId newId h hfresh =>
    obtain ⟨rider, hrf, rfl⟩ := requestRide_ok h
    constructor
    · simp only [List.map_append, List.map_cons, List.map_nil]
      rw [List.nodup_append]
      refine ⟨hnd, List.nodup_singleton _, ?_⟩
      intro a ha hb
      rcases List.mem_singleton.mp hb with rfl
      obtain ⟨r, hr, hrid⟩ := List.mem_map.mp ha
      have hid : (applyOffer s (newRequest newId riderId rider)).id = newId :=
        (applyOffer_fields s (newRequest newId riderId rider)).1
      rw [hid] at hrid
      exact hfresh r hr hrid
    · intro r hr
      rcases List.mem_append.mp hr with h1 | h1
      · exact hnr r h1
      · rcases List.mem_singleton.mp h1 with rfl
        rcases applyOffer_status s (newRequest newId riderId rider) with h2 | h2 <;>
          rw [h2] <;>
          exact fun hc => RideStatus.noConfusion hc
  | accept s2 reqId driverId h =>
    obtain ⟨req, hfr, hst, hrq⟩ := acceptRide_ok h
    constructor
    · rw [hrq]
      refine updateRequest_nodup ?_ hnd
      intro r hri
      exact hri
    · rw [hrq]
      intro r hr
      obtain ⟨r0, hr0, hcase⟩ := mem_updateRequest_elim hr
      subst hcase
      by_cases h0 : r0.id = reqId
      · rw [if_pos h0]
        exact fun hc => RideStatus.noConfusion hc
      · rw [if_neg h0]
        exact hnr r0 hr0
  | reject s2 reqId driverId h =>
    obtain ⟨req, hfr, hst, hbr⟩ := rejectRide_ok h
    have hreqid : req.id = reqId := by
      have hp := List.find?_some hfr
      simpa using hp
    rcases hbr with hrq | hrq
    · constructor
      · rw [hrq]
        refine updateRequest_nodup ?_ hnd
        intro r hri
        exact hreqid
      · rw [hrq]
        intro r hr
        obtain ⟨r0, hr0, hcase⟩ := mem_updateRequest_elim hr
        subst hcase
        by_cases h0 : r0.id = reqId
        · rw [if_pos h0]
          exact fun hc => RideStatus.noConfusion hc
        · rw [if_neg h0]
          exact hnr r0 hr0
    · constructor
      · rw [hrq]
        refine updateRequest_nodup ?_ (updateRequest_nodup ?_ hnd)
        · intro r hri
          exact (applyOffer_fields (rejectMidState s reqId driverId req)
            (rejectedOnce req driverId)).1.trans hreqid
        · intro r hri
          exact hreqid
      · rw [hrq]
        intro r hr
        obtain ⟨r0, hr0, hcase⟩ := mem_updateRequest_elim hr
        subst hcase
        by_cases h0 : r0.id = reqId
        · rw [if_pos h0]
          rcases applyOffer_status (rejectMidState s reqId driverId req)
              (rejectedOnce req driverId) with h2 | h2 <;>
            rw [h2] <;>
            exact fun hc => RideStatus.noConfusion hc
        · rw [if_neg h0]
          obtain ⟨r1, hr1, hcase1⟩ := mem_updateRequest_elim hr0
          subst hcase1
          by_cases h1 : r1.id = reqId
          · rw [if_pos h1]
            exact fun hc => RideStatus.noConfusion hc
          · rw [if_neg h1]
            exact hnr r1 hr1
  | doTick =>
    constructor
    · show (((tickDrivers s.drivers s.ride_requests).2.1).map
        (fun r => r.id)).Nodup
      rw [tickDrivers_ids]
      exact hnd
    · exact tickDrivers_no_rejected s.drivers s.ride_requests hnr
  | delDriver s2 driverId h =>
    obtain ⟨hrq, _⟩ := removeDriver_ok h
    exact ⟨by rw [hrq]; exact hnd, by rw [hrq]; exact hnr⟩
  | delRider s2 riderId h =>
    obtain ⟨hrq, _⟩ := removeRider_ok h
    exact ⟨by rw [hrq]; exact hnd, by rw [hrq]; exact hnr⟩

theorem reachable_reqInv {s : SimState} (h : Reachable s) : ReqInv s := by
  induction h with
  | init => exact ⟨by simp [initState], by simp [initState]⟩
  | step hr hstep ih => exact step_reqInv ih hstep

theorem step_terminal_preserved {s s' : SimState} (hs : ReqInv s)
    (hstep : Step s s') {r : RideRequest} (hr : r ∈ s.ride_requests)
    (hterm : r.status = .COMPLETED ∨ r.status = .FAILED) :
    r ∈ s'.ride_requests := by
  obtain ⟨hnd, _⟩ := hs
  cases hstep with
  | addDriver newId nm loc => exact hr
  | addRider newId nm pickup dropoff => exact hr
  | reqRide s2 riderId newId h hfresh =>
    obtain ⟨rider, _, rfl⟩ := requestRide_ok h
    exact List.mem_append_left _ hr
  | accept s2 reqId driverId h =>
    obtain ⟨req, hfr, hst, hrq⟩ := acceptRide_ok h
    rw [hrq]
    by_cases hid : r.id = reqId
    · have hreqmem : req ∈ s.ride_requests := List.mem_of_find?_eq_some hfr
      have hreqid : req.id = reqId := by
        have := List.find?_some hfr
        simpa using this
      have hre : r = req :=
        List.inj_on_of_nodup_map hnd hr hreqmem (by rw [hid, hreqid])
      rw [hre] at hterm
      rcases hterm with h2 | h2 <;> rw [hst] at h2 <;>
        exact RideStatus.noConfusion h2
    · exact mem_updateRequest_of_ne hr hid
  | reject s2 reqId driverId h =>
    obtain ⟨req, hfr, hst, hbr⟩ := rejectRide_ok h
    by_cases hid : r.id = reqId
    · have hreqmem : req ∈ s.ride_requests := List.mem_of_find?_eq_some hfr
      have hreqid : req.id = reqId := by
        have := List.find?_some hfr
        simpa using this
      have hre : r = req :=
        List.inj_on_of_nodup_map hnd hr hreqmem (by rw [hid, hreqid])
      rw [hre] at hterm
      rcases hterm with h2 | h2 <;> rw [hst] at h2 <;>
        exact RideStatus.noConfusion h2
    · rcases hbr with hrq | hrq <;> rw [hrq]
      · exact mem_updateRequest_of_ne hr hid
      · exact mem_updateRequest_of_ne (mem_updateRequest_of_ne hr hid) hid
  | doTick =>
    exact tickDrivers_terminal s.drivers s.ride_requests hnd hr hterm
  | delDriver s2 driverId h =>
    rw [(removeDriver_ok h).1]
    exact hr
  | delRider s2 riderId h =>
    rw [(removeRider_ok h).1]
    exact hr

/-- C4: in every reachable state, the status of every ride request as a
whole is one of WAITING, PENDING_ACCEPTANCE, ASSIGNED, COMPLETED,
FAILED — never REJECTED — and a request that has reached COMPLETED or
FAILED is immutable: every further operation keeps its record intact. -/
theorem ride_status_closed_and_terminal (s : SimState) (hs : Reachable s) :
    (∀ r ∈ s.ride_requests,
      r.status = .WAITING ∨ r.status = .PENDING_ACCEPTANCE ∨
      r.status = .ASSIGNED ∨ r.status = .COMPLETED ∨ r.status = .FAILED) ∧
    (∀ s' : SimState, Step s s' → ∀ r ∈ s.ride_requests,
      (r.status = .COMPLETED ∨ r.status = .FAILED) →
      r ∈ s'.ride_requests) := by
  have hinv := reachable_reqInv hs
  constructor
  · intro r hr
    have hne := hinv.2 r hr
    cases hst : r.status with
    | WAITING => exact Or.inl rfl
    | PENDING_ACCEPTANCE => exact Or.inr (Or.inl rfl)
    | ASSIGNED => exact Or.inr (Or.inr (Or.inl rfl))
    | COMPLETED => exact Or.inr (Or.inr (Or.inr (Or.inl rfl)))
    | FAILED => exact Or.inr (Or.inr (Or.inr (Or.inr rfl)))
    | REJECTED => exact absurd hst hne
  · intro s' hstep r hr hterm
    exact step_terminal_preserved hinv hstep hr hterm

/-- Witness for `ride_status_closed_and_terminal`: the request present
in the reachable state obtained by creating a rider and requesting a
ride with no drivers has one of the five whole-request statuses. -/
theorem ride_status_closed_and_terminal_witness :
    (⟨10, 20, .WAITING, none, none, ⟨1, 1⟩, ⟨2, 2⟩, [], false, 0⟩ :
        RideRequest).status = .WAITING ∨
    (⟨10, 20, .WAITING, none, none, ⟨1, 1⟩, ⟨2, 2⟩, [], false, 0⟩ :
        RideRequest).status = .PENDING_ACCEPTANCE ∨
    (⟨10, 20, .WAITING, none, none, ⟨1, 1⟩, ⟨2, 2⟩, [], false, 0⟩ :
        RideRequest).status = .ASSIGNED ∨
    (⟨10, 20, .WAITING, none, none, ⟨1, 1⟩, ⟨2, 2⟩, [], false, 0⟩ :
        RideRequest).status = .COMPLETED ∨
    (⟨10, 20, .WAITING, none, none, ⟨1, 1⟩, ⟨2, 2⟩, [], false, 0⟩ :
        RideRequest).status = .FAILED := by
  have hreach : Reachable
      (⟨[], [⟨20, "R", ⟨1, 1⟩, ⟨2, 2⟩⟩],
        [⟨10, 20, .WAITING, none, none, ⟨1, 1⟩, ⟨2, 2⟩, [], false, 0⟩], 0⟩ :
        SimState) := by
    refine Reachable.step
      (Reachable.step Reachable.init
        (Step.addRider initState 20 "R" ⟨1, 1⟩ ⟨2, 2⟩))
      (Step.reqRide _ _ 20 10 ?_ ?_)
    · rfl
    · intro r hr
      simp [initState, createRiderOp] at hr
  exact (ride_status_closed_and_terminal _ hreach).1
    ⟨10, 20, .WAITING, none, none, ⟨1, 1⟩, ⟨2, 2⟩, [], false, 0⟩ (by decide)

/-- Witness for `selection_deterministic`: a concrete three-driver
candidate set where the nearest driver is offered. -/
theorem selection_deterministic_witness :
    ∃ sc : Scored,
      pickBest (scoreCandidates ⟨0, 0⟩
        [⟨1, "A", ⟨5, 0⟩, .AVAILABLE, none, 0, 0, 0⟩,
         ⟨2, "B", ⟨1, 1⟩, .AVAILABLE, none, 0, 0, 0⟩,
         ⟨3, "C", ⟨9, 9⟩, .AVAILABLE, none, 0, 0, 0⟩]) = some sc ∧
      selectDriver ⟨0, 0⟩
        [⟨1, "A", ⟨5, 0⟩, .AVAILABLE, none, 0, 0, 0⟩,
         ⟨2, "B", ⟨1, 1⟩, .AVAILABLE, none, 0, 0, 0⟩,
         ⟨3, "C", ⟨9, 9⟩, .AVAILABLE, none, 0, 0, 0⟩] = some sc.driver := by
  obtain ⟨sc, h1, h2, _⟩ := selection_deterministic ⟨0, 0⟩
    [⟨1, "A", ⟨5, 0⟩, .AVAILABLE, none, 0, 0, 0⟩,
     ⟨2, "B", ⟨1, 1⟩, .AVAILABLE, none, 0, 0, 0⟩,
     ⟨3, "C", ⟨9, 9⟩, .AVAILABLE, none, 0, 0, 0⟩] (by decide) (by decide)
  exact ⟨sc, h1, h2⟩

/-- C10: every operation of the frontend API service throws exactly when
the HTTP response is not ok and returns the parsed body otherwise; the
thrown message is a fixed per-operation string, independent of the
backend error kind, so NotFound, InvalidStateTransition and EntityInUse
are indistinguishable to callers of this layer. -/
theorem api_service_error_opacity :
    FixedMessageApi Frontend.createDriver "Failed to create driver" ∧
    FixedMessageApi Frontend.deleteDriver "Failed to delete driver" ∧
    FixedMessageApi Frontend.createRider "Failed to create rider" ∧
    FixedMessageApi Frontend.deleteRider "Failed to delete rider" ∧
    FixedMessageApi Frontend.getRiders "Failed to get riders" ∧
    FixedMessageApi Frontend.requestRide "Failed to request ride" ∧
    FixedMessageApi Frontend.advanceTick "Failed to advance tick" ∧
    FixedMessageApi Frontend.getSystemState "Failed to get system state" ∧
    (∀ α : Type, FixedMessageApi (@Frontend.getActiveRides α)
      "Failed to get active rides") ∧
    (∀ α : Type, FixedMessageApi (@Frontend.getDriverPendingRides α)
      "Failed to get driver pending rides") ∧
    FixedMessageApi Frontend.acceptRide "Failed to accept ride" ∧
    FixedMessageApi Frontend.rejectRide "Failed to reject ride" := by
  refine ⟨?_, ?_, ?_, ?_, ?_, ?_, ?_, ?_, fun α => ?_, fun α => ?_, ?_, ?_⟩ <;>
    intro resp <;>
    refine ⟨fun h => ?_, fun h => ?_, fun k1 k2 => rfl⟩ <;>
    simp [Frontend.createDriver, Frontend.deleteDriver, Frontend.createRider,
      Frontend.deleteRider, Frontend.getRiders, Frontend.requestRide,
      Frontend.advanceTick, Frontend.getSystemState, Frontend.getActiveRides,
      Frontend.getDriverPendingRides, Frontend.acceptRide, Frontend.rejectRide,
      h]

/-- Witness for `api_service_error_opacity`: a failing accept carries
the fixed message whatever the backend error kind was. -/
theorem api_service_error_opacity_witness :
    Frontend.acceptRide ⟨false, ⟨"", ""⟩, some .NotFound⟩ =
      .failure "Failed to accept ride" ∧
    Frontend.acceptRide ⟨false, ⟨"", ""⟩, some .NotFound⟩ =
      Frontend.acceptRide ⟨false, ⟨"", ""⟩, some .InvalidStateTransition⟩ := by
  have h := api_service_error_opacity.2.2.2.2.2.2.2.2.2.2.1
    ⟨false, ⟨"", ""⟩, none⟩
  exact ⟨(api_service_error_opacity.2.2.2.2.2.2.2.2.2.2.1
      ⟨false, ⟨"", ""⟩, some .NotFound⟩).2.1 rfl,
    h.2.2 (some .NotFound) (some .InvalidStateTransition)⟩

end RideSim
